import Mathlib

/-!
Shallow embedding of `src/jni/native/olm_pk.cpp`, the JNI bridge that exposes
libolm's public-key encryption module to the managed runtime.

Each JNI entry point of the source file becomes a pure Lean function.  The
pieces of the environment the C code interacts with are made explicit
arguments:

* the cryptographic engine (libolm's pk module, an external collaborator) is a
  record of functions, `Engine`;
* JNI calls that can fail (`GetByteArrayElements`, `GetObjectClass`,
  `GetFieldID`, `GetStringUTFChars`) and the `malloc`s are driven by boolean
  outcome flags, one per call site, mirroring the source's cascade of checks;
* the secure-random draw is an `Option (List Nat)`;
* native-memory effects (malloc / free / memset-to-zero of the call's scratch
  buffers) are recorded in an event list so that leak- and zeroing-properties
  can be stated;
* uninitialized buffer contents are an arbitrary function `junk` from offsets
  to byte values, so theorems quantify over whatever garbage `malloc` returns.

Bytes are `Nat`s; byte sequences are `List Nat`.  A thrown Java exception is
the `thrown : Option String` field of each result record, holding exactly the
`errorMessage` string the source passes to `ThrowNew`.
-/

namespace OlmPk

/-- Identity of a native scratch buffer allocated by one bridge call.  Within a
single call each of these is allocated at most once, so the name identifies the
allocation. -/
inductive BufName
  | ciphertextBuf
  | macBuf
  | ephemeralBuf
  | randomBuf
  | plaintextBuf
  | tempCiphertextBuf
  | publicKeyBuf
  deriving DecidableEq

/-- A native-memory event performed by a bridge call: `malloc`, `free`, or
`memset(_, 0, len)` of one of the call's scratch buffers, in program order. -/
inductive Event
  | alloc (b : BufName) (len : Nat)
  | free (b : BufName)
  | zero (b : BufName) (len : Nat)
  deriving DecidableEq

/-- Contents of a freshly `malloc`ed buffer of length `n`: uninitialized
memory, modelled by an arbitrary function `junk` from offsets to byte
values. -/
def mkBuf (junk : Nat → Nat) (n : Nat) : List Nat :=
  (List.range n).map junk

/-- The engine writing `data` at the start of buffer `buf`; the tail keeps the
buffer's previous contents. -/
def writeOver (buf data : List Nat) : List Nat :=
  data ++ buf.drop data.length

/-- `NewStringUTF` / `GetStringUTFChars` view of a C string buffer: the bytes
up to (excluding) the first NUL. -/
def cString (l : List Nat) : List Nat :=
  l.takeWhile (fun b => b != 0)

/-- The external cryptographic engine (libolm's pk module), exactly the calls
the bridge makes (spec section 6).  Engine calls that can fail with the
`olm_error()` sentinel are modelled as `Except String`: a failure carries the
string that the engine's `last_error` query reports when the bridge queries it
immediately afterwards, as the source does.  `pk_decrypt` is destructive on
its ciphertext input, so it additionally returns the bytes it leaves behind in
the ciphertext buffer it was handed. -/
structure Engine (EncCtx DecCtx : Type) where
  ciphertext_length : EncCtx → Nat → Nat
  mac_length : EncCtx → Nat
  key_length : Nat
  encrypt_random_length : EncCtx → Nat
  generate_key_random_length : Nat
  max_plaintext_length : DecCtx → Nat → Nat
  set_recipient_key : EncCtx → List Nat → Except String EncCtx
  pk_encrypt : EncCtx → List Nat → List Nat →
    Except String (List Nat × List Nat × List Nat)
  pk_generate_key : DecCtx → List Nat → Except String (DecCtx × List Nat)
  pk_decrypt : DecCtx → List Nat → List Nat → List Nat → Nat →
    Except String (List Nat) × List Nat

/-- The `EncryptedMessage` value object as `decryptJni` reads it: three string
fields (ciphertext-as-text, MAC, ephemeral key), each possibly null. -/
structure EncryptedMessage where
  mCipherText : Option (List Nat)
  mMac : Option (List Nat)
  mEphemeralKey : Option (List Nat)

/-- Result of `releasePkEncryptionJni` / `releasePkDecryptionJni`.
`clearedAndFreed` records whether `olm_clear_*` followed by `free` ran.
`ctxAfter` is the handle as later calls resolve it; modelled from the spec:
the managed wrapper (Java side of this repository, not under src/) tracks
handle validity, so once the native context has been cleared and freed the
handle resolves to null for every subsequent call. -/
structure ReleaseResult (Ctx : Type) where
  clearedAndFreed : Bool
  ctxAfter : Option Ctx

/-- `releasePkEncryptionJni` (olm_pk.cpp lines 73-94): a null handle is a
logged no-op; otherwise `olm_clear_pk_encryption` then `free`. -/
def releasePkEncryptionJni {E : Type} (encryptionPtr : Option E) : ReleaseResult E :=
  match encryptionPtr with
  | none => ⟨false, none⟩
  | some _ => ⟨true, none⟩

/-- `releasePkDecryptionJni` (olm_pk.cpp lines 320-341): a null handle is a
logged no-op; otherwise `olm_clear_pk_decryption` then `free`. -/
def releasePkDecryptionJni {D : Type} (decryptionPtr : Option D) : ReleaseResult D :=
  match decryptionPtr with
  | none => ⟨false, none⟩
  | some _ => ⟨true, none⟩

/-- Result of `setRecipientKeyJni`.  `ctxNew` is the encryption context after
the call (updated by the engine when the key was accepted). -/
structure SetKeyResult (EncCtx : Type) where
  thrown : Option String
  engineCalled : Bool
  ctxNew : Option EncCtx

/-- `setRecipientKeyJni` (olm_pk.cpp lines 96-135).  `keyPinOk` is the outcome
of `GetByteArrayElements`.  A null handle only logs; a null key buffer sets
`errorMessage = "invalid key"`; otherwise the key bytes and their length are
forwarded to `olm_pk_encryption_set_recipient_key`, and on the error sentinel
the message is `olm_pk_encryption_last_error`. -/
def setRecipientKeyJni {E D : Type} (eng : Engine E D) (encryptionPtr : Option E)
    (aKeyBuffer : Option (List Nat)) (keyPinOk : Bool) : SetKeyResult E :=
  match encryptionPtr with
  | none => ⟨none, false, none⟩
  | some ctx =>
    match aKeyBuffer with
    | none => ⟨some "invalid key", false, some ctx⟩
    | some key =>
      if keyPinOk then
        match eng.set_recipient_key ctx key with
        | Except.error s => ⟨some s, true, some ctx⟩
        | Except.ok ctx2 => ⟨none, true, some ctx2⟩
      else ⟨some "key JNI allocation OOM", false, some ctx⟩

/-- Result of `encryptJni`.  `ret` is the returned ciphertext byte array (none
for the null return), `macField` / `ephemeralField` the strings stored into the
message object's `mMac` / `mEphemeralKey` fields. -/
structure EncryptResult where
  ret : Option (List Nat)
  macField : Option (List Nat)
  ephemeralField : Option (List Nat)
  thrown : Option String
  events : List Event
  engineCalled : Bool

/-- `encryptJni` (olm_pk.cpp lines 137-268).  The boolean flags are the
outcomes of the fallible JNI calls and `malloc`s, one per call site in source
order: `plaintextPinOk` = `GetByteArrayElements`, `classOk` = `GetObjectClass`,
`macFieldOk` / `ephFieldOk` = the two `GetFieldID`s, then the three scratch
`malloc`s.  `randomDraw` is the outcome of `setRandomInBuffer`; that helper is
not under src/, so it is modelled from the spec: on success it allocates a
buffer of exactly the required random length and fills it from the Secure
Random Provider, on failure it reports failure leaving nothing allocated.
The MAC and ephemeral buffers carry a trailing NUL terminator, written by the
source before the engine call. -/
def encryptJni {E D : Type} (eng : Engine E D) (encryptionPtr : Option E)
    (aPlaintextBuffer : Option (List Nat))
    (plaintextPinOk classOk macFieldOk ephFieldOk : Bool)
    (ciphertextAllocOk macAllocOk ephemeralAllocOk : Bool)
    (randomDraw : Option (List Nat)) (junk : Nat → Nat) : EncryptResult :=
  match encryptionPtr with
  | none =>
    -- the source only logs here; errorMessage stays NULL and nothing is thrown
    ⟨none, none, none, none, [], false⟩
  | some ctx =>
  match aPlaintextBuffer with
  | none => ⟨none, none, none, some "invalid clear message", [], false⟩
  | some plain =>
  if plaintextPinOk then
  if classOk then
  if macFieldOk then
  if ephFieldOk then
    let ciphertextLength := eng.ciphertext_length ctx plain.length
    let macLength := eng.mac_length ctx
    let ephemeralLength := eng.key_length
    let randomLength := eng.encrypt_random_length ctx
    if ciphertextAllocOk then
    if macAllocOk then
    if ephemeralAllocOk then
      match randomDraw with
      | none =>
        ⟨none, none, none, some "random buffer init",
          [Event.alloc BufName.ciphertextBuf ciphertextLength,
           Event.alloc BufName.macBuf (macLength + 1),
           Event.alloc BufName.ephemeralBuf (ephemeralLength + 1),
           Event.free BufName.ephemeralBuf,
           Event.free BufName.macBuf,
           Event.free BufName.ciphertextBuf], false⟩
      | some rnd =>
        let cipherBuf := mkBuf junk ciphertextLength
        let macBuf := mkBuf junk macLength ++ [0]
        let ephemeralBuf := mkBuf junk ephemeralLength ++ [0]
        let evs := [Event.alloc BufName.ciphertextBuf ciphertextLength,
           Event.alloc BufName.macBuf (macLength + 1),
           Event.alloc BufName.ephemeralBuf (ephemeralLength + 1),
           Event.alloc BufName.randomBuf randomLength,
           Event.zero BufName.randomBuf randomLength,
           Event.free BufName.randomBuf,
           Event.free BufName.ephemeralBuf,
           Event.free BufName.macBuf,
           Event.free BufName.ciphertextBuf]
        match eng.pk_encrypt ctx plain rnd with
        | Except.error s => ⟨none, none, none, some s, evs, true⟩
        | Except.ok (c, m, e) =>
          ⟨some ((writeOver cipherBuf c).take ciphertextLength),
           some (cString (writeOver macBuf m)),
           some (cString (writeOver ephemeralBuf e)),
           none, evs, true⟩
    else ⟨none, none, none, some "ephemeral JNI allocation OOM",
      [Event.alloc BufName.ciphertextBuf ciphertextLength,
       Event.alloc BufName.macBuf (macLength + 1),
       Event.free BufName.macBuf,
       Event.free BufName.ciphertextBuf], false⟩
    else ⟨none, none, none, some "MAC JNI allocation OOM",
      [Event.alloc BufName.ciphertextBuf ciphertextLength,
       Event.free BufName.ciphertextBuf], false⟩
    else ⟨none, none, none, some "ciphertext JNI allocation OOM", [], false⟩
  else ⟨none, none, none, some "unable to get ephemeral key field", [], false⟩
  else ⟨none, none, none, some "unable to get MAC field", [], false⟩
  else ⟨none, none, none, some "unable to get crypted message class", [], false⟩
  else ⟨none, none, none, some "plaintext JNI allocation OOM", [], false⟩

/-- Result of `generateKeyJni`.  `ctxFreed` records whether the error path
cleared and freed the decryption context itself (olm_pk.cpp lines 391-400).
`ctxAfter` is the handle as later calls resolve it; the resolution to null
after the context was freed is modelled from the spec (the managed wrapper,
not under src/, tracks handle validity). -/
structure GenerateKeyResult (DecCtx : Type) where
  ret : Option (List Nat)
  thrown : Option String
  events : List Event
  engineCalled : Bool
  ctxFreed : Bool
  ctxAfter : Option DecCtx

/-- `generateKeyJni` (olm_pk.cpp lines 343-403).  `randomDraw` is the outcome
of `setRandomInBuffer` (modelled from the spec, as in `encryptJni`);
`publicKeyAllocOk` the outcome of the public-key `malloc`.  On any
`errorMessage`, with a non-null handle, the error path clears and frees the
decryption context before throwing.  The public-key scratch buffer is never
freed, exactly as in the source. -/
def generateKeyJni {E D : Type} (eng : Engine E D) (decryptionPtr : Option D)
    (randomDraw : Option (List Nat)) (publicKeyAllocOk : Bool)
    (junk : Nat → Nat) : GenerateKeyResult D :=
  let randomLength := eng.generate_key_random_length
  let publicKeyLength := eng.key_length
  match decryptionPtr with
  | none => ⟨none, some "invalid Decryption ptr=NULL", [], false, false, none⟩
  | some ctx =>
  match randomDraw with
  | none =>
    -- error path: decryptionPtr is non-null, so the context is cleared+freed
    ⟨none, some "random buffer init", [], false, true, none⟩
  | some rnd =>
  if publicKeyAllocOk then
    let evs := [Event.alloc BufName.randomBuf randomLength,
      Event.alloc BufName.publicKeyBuf publicKeyLength,
      Event.zero BufName.randomBuf randomLength,
      Event.free BufName.randomBuf]
    match eng.pk_generate_key ctx rnd with
    | Except.error s => ⟨none, some s, evs, true, true, none⟩
    | Except.ok (ctx2, pub) =>
      ⟨some ((writeOver (mkBuf junk publicKeyLength) pub).take publicKeyLength),
       none, evs, true, false, some ctx2⟩
  else
    ⟨none, some "public key allocation OOM",
      [Event.alloc BufName.randomBuf randomLength,
       Event.zero BufName.randomBuf randomLength,
       Event.free BufName.randomBuf], false, true, none⟩

/-- Result of `decryptJni`.  `engineCiphertextArg` is the buffer contents the
engine's decrypt operation was invoked on (none when the engine was not
reached); `msgCiphertextAfter` is the caller's ciphertext view after the call
returns. -/
structure DecryptResult where
  ret : Option (List Nat)
  thrown : Option String
  events : List Event
  engineCalled : Bool
  engineCiphertextArg : Option (List Nat)
  msgCiphertextAfter : Option (List Nat)

/-- `decryptJni` (olm_pk.cpp lines 405-564).  Boolean flags are the fallible
JNI call outcomes in source order; the source fetches and pins the ciphertext
field twice (lines 444-463), hence `ctPinOk` and `ctPin2Ok`.  The engine
operates on a scratch copy of the ciphertext (`memcpy`, line 514); its
destructive output lands in that temp buffer, so the caller's view is
untouched.  In the branch where the temp-ciphertext `malloc` fails (lines
508-511) the source logs the OOM but never sets `errorMessage`; the embedding
preserves that, so that branch throws nothing. -/
def decryptJni {E D : Type} (eng : Engine E D) (decryptionPtr : Option D)
    (aEncryptedMsg : Option EncryptedMessage)
    (classOk ctFieldOk ctPinOk ctPin2Ok macFieldOk macPinOk ephFieldOk ephPinOk : Bool)
    (plaintextAllocOk tempCiphertextAllocOk : Bool)
    (junk : Nat → Nat) : DecryptResult :=
  match decryptionPtr with
  | none =>
    ⟨none, some "invalid Decryption ptr=NULL", [], false, none,
      match aEncryptedMsg with
      | none => none
      | some msg => msg.mCipherText⟩
  | some ctx =>
  match aEncryptedMsg with
  | none => ⟨none, some "invalid encrypted message", [], false, none, none⟩
  | some msg =>
  if classOk then
  if ctFieldOk then
  match msg.mCipherText with
  | none => ⟨none, some "no ciphertext", [], false, none, none⟩
  | some ct =>
  if ctPinOk then
  if ctPin2Ok then
  if macFieldOk then
  match msg.mMac with
  | none => ⟨none, some "no MAC", [], false, none, some ct⟩
  | some mac =>
  if macPinOk then
  if ephFieldOk then
  match msg.mEphemeralKey with
  | none => ⟨none, some "no ephemeral key", [], false, none, some ct⟩
  | some eph =>
  if ephPinOk then
    let ciphertextLength := ct.length
    let maxPlaintextLength := eng.max_plaintext_length ctx ct.length
    if plaintextAllocOk then
    if tempCiphertextAllocOk then
      -- memcpy(tempCiphertextPtr, ciphertextPtr, ciphertextLength)
      let tempCiphertext := ct
      let evs := [Event.alloc BufName.plaintextBuf maxPlaintextLength,
        Event.alloc BufName.tempCiphertextBuf ciphertextLength,
        Event.free BufName.tempCiphertextBuf,
        Event.free BufName.plaintextBuf]
      match eng.pk_decrypt ctx eph mac tempCiphertext maxPlaintextLength with
      | (Except.error s, _) => ⟨none, some s, evs, true, some tempCiphertext, some ct⟩
      | (Except.ok written, _) =>
        ⟨some ((writeOver (mkBuf junk maxPlaintextLength) written).take written.length),
         none, evs, true, some tempCiphertext, some ct⟩
    else
      -- source bug preserved: errorMessage is never set in this branch
      ⟨none, none, [Event.alloc BufName.plaintextBuf maxPlaintextLength,
        Event.free BufName.plaintextBuf], false, none, some ct⟩
    else ⟨none, some "plaintext JNI allocation OOM", [], false, none, some ct⟩
  else ⟨none, some "ephemeral key JNI allocation OOM", [], false, none, some ct⟩
  else ⟨none, some "unable to get ephemeral key field", [], false, none, some ct⟩
  else ⟨none, some "ciphertext JNI allocation OOM", [], false, none, some ct⟩
  else ⟨none, some "unable to get MAC field", [], false, none, some ct⟩
  else ⟨none, some "ciphertext JNI allocation OOM", [], false, none, some ct⟩
  else ⟨none, some "ciphertext JNI allocation OOM", [], false, none, some ct⟩
  else ⟨none, some "unable to get message field", [], false, none, msg.mCipherText⟩
  else ⟨none, some "unable to get encrypted message class", [], false, none, msg.mCipherText⟩

/-- `memset(buf, 0, n)` of buffer `b` happens at some position strictly before
`free(buf)` in the call's event sequence. -/
def zeroedThenFreed (evs : List Event) (b : BufName) (n : Nat) : Prop :=
  ∃ i j : Nat, i < j ∧ evs.get? i = some (Event.zero b n) ∧
    evs.get? j = some (Event.free b)

/-- A concrete engine instance, used to evaluate the bridge at concrete
inputs: a toy scheme (secret key `s`; public key = `s` with every byte + 1;
ciphertext = plaintext shifted by the sum of the recipient key; fixed MAC
`[7, 8]`; the ephemeral-key output is the recipient key).  Its `pk_decrypt`
zeroes the ciphertext buffer it is handed, exercising the destructive-input
contract.  It stands in for the engine only to produce witnesses and
counterexamples; it is not libolm's cryptography. -/
def toyEngine : Engine (List Nat) (List Nat) :=
  ⟨fun _ n => n,
   fun _ => 2,
   2,
   fun _ => 2,
   2,
   fun _ n => n,
   fun _ key => if key.length = 2 then Except.ok key
     else Except.error "INVALID_KEY_LENGTH",
   fun recipientKey plain _ => if recipientKey.length = 2 then
       Except.ok (plain.map (fun b => b + recipientKey.sum), [7, 8], recipientKey)
     else Except.error "BAD_RECIPIENT_KEY",
   fun _ rnd => if rnd.length = 2 then Except.ok (rnd, rnd.map (fun b => b + 1))
     else Except.error "NOT_ENOUGH_RANDOM",
   fun s eph mac ct _ =>
     (if eph = s.map (fun b => b + 1) ∧ mac = [7, 8] then
        Except.ok (ct.map (fun b => b - (s.map (fun x => x + 1)).sum))
      else Except.error "BAD_MESSAGE_MAC",
      ct.map (fun _ => 0))⟩

/-- All-zero uninitialized-buffer contents, for concrete evaluations. -/
def junk0 : Nat → Nat := fun _ => 0

theorem mkBuf_length (junk : Nat → Nat) (n : Nat) : (mkBuf junk n).length = n := by
  simp [mkBuf]

theorem writeOver_take (buf data : List Nat) :
    (writeOver buf data).take data.length = data := by
  rw [writeOver]
  exact List.take_left data (buf.drop data.length)

theorem mkBuf_append_drop (junk : Nat → Nat) (L : Nat) (t : List Nat) :
    (mkBuf junk L ++ t).drop L = t := by
  have h := List.drop_left (mkBuf junk L) t
  rwa [mkBuf_length] at h

theorem cString_append_zero (m r : List Nat) (h : ∀ b ∈ m, b ≠ 0) :
    cString (m ++ 0 :: r) = m := by
  induction m with
  | nil => simp [cString]
  | cons a t ih =>
    have ha : (a != 0) = true := by
      simp [h a (List.mem_cons_self a t)]
    have ht := ih (fun b hb => h b (List.mem_cons_of_mem a hb))
    simp only [List.cons_append, cString, List.takeWhile_cons, ha, if_true]
    simp only [cString] at ht
    simp [ht]

/-- C1: on a valid decryption context, when the engine's key-generation
operation fails, `generateKeyJni` captures the engine's error message as the
thrown error and additionally clears and frees the decryption context itself,
so the context is destroyed and every subsequent operation on the handle
(decrypt, generate-key, release) fails without reaching the engine, without a
result, and without a second free. -/
theorem generateKey_engine_failure_destroys_context {E D : Type}
    (eng : Engine E D) (ctx : D) (rnd : List Nat) (s : String) (junk : Nat → Nat)
    (msg : Option EncryptedMessage)
    (f1 f2 f3 f4 f5 f6 f7 f8 f9 f10 : Bool) (junk2 : Nat → Nat)
    (rnd2 : Option (List Nat)) (pubOk2 : Bool) (junk3 : Nat → Nat)
    (h : eng.pk_generate_key ctx rnd = Except.error s) :
    let r := generateKeyJni eng (some ctx) (some rnd) true junk
    r.thrown = some s ∧ r.ctxFreed = true ∧ r.ctxAfter = none ∧ r.ret = none ∧
    (decryptJni eng r.ctxAfter msg f1 f2 f3 f4 f5 f6 f7 f8 f9 f10 junk2).engineCalled = false ∧
    (decryptJni eng r.ctxAfter msg f1 f2 f3 f4 f5 f6 f7 f8 f9 f10 junk2).ret = none ∧
    (generateKeyJni eng r.ctxAfter rnd2 pubOk2 junk3).engineCalled = false ∧
    (generateKeyJni eng r.ctxAfter rnd2 pubOk2 junk3).ret = none ∧
    (releasePkDecryptionJni r.ctxAfter).clearedAndFreed = false := by
  simp [generateKeyJni, decryptJni, releasePkDecryptionJni, h]

/-- Witness for C1 at a concrete input: the toy engine rejects an empty random
buffer, and the failed `generateKeyJni` destroys the context. -/
theorem generateKey_engine_failure_destroys_context_witness :
    toyEngine.pk_generate_key [1, 2] [] = Except.error "NOT_ENOUGH_RANDOM" ∧
    ((generateKeyJni toyEngine (some [1, 2]) (some []) true junk0).thrown =
        some "NOT_ENOUGH_RANDOM" ∧
      (generateKeyJni toyEngine (some [1, 2]) (some []) true junk0).ctxFreed = true ∧
      (generateKeyJni toyEngine (some [1, 2]) (some []) true junk0).ctxAfter = none ∧
      (generateKeyJni toyEngine (some [1, 2]) (some []) true junk0).ret = none ∧
      (decryptJni toyEngine
        (generateKeyJni toyEngine (some [1, 2]) (some []) true junk0).ctxAfter none
        true true true true true true true true true true junk0).engineCalled = false ∧
      (decryptJni toyEngine
        (generateKeyJni toyEngine (some [1, 2]) (some []) true junk0).ctxAfter none
        true true true true true true true true true true junk0).ret = none ∧
      (generateKeyJni toyEngine
        (generateKeyJni toyEngine (some [1, 2]) (some []) true junk0).ctxAfter none
        true junk0).engineCalled = false ∧
      (generateKeyJni toyEngine
        (generateKeyJni toyEngine (some [1, 2]) (some []) true junk0).ctxAfter none
        true junk0).ret = none ∧
      (releasePkDecryptionJni
        (generateKeyJni toyEngine (some [1, 2]) (some []) true junk0).ctxAfter).clearedAndFreed
        = false) :=
  ⟨by rfl,
   generateKey_engine_failure_destroys_context toyEngine [1, 2] [] "NOT_ENOUGH_RANDOM"
     junk0 none true true true true true true true true true true junk0 none true junk0
     (by rfl)⟩

/-- C10: every `generateKeyJni` call that reaches the allocation of the
public-key scratch buffer allocates it and never frees it — on success and on
engine failure alike — so each such call leaks one public-key-length
allocation. -/
theorem generateKey_public_key_buffer_leaked {E D : Type}
    (eng : Engine E D) (ctx : D) (rnd : List Nat) (junk : Nat → Nat) :
    let r := generateKeyJni eng (some ctx) (some rnd) true junk
    Event.alloc BufName.publicKeyBuf eng.key_length ∈ r.events ∧
    Event.free BufName.publicKeyBuf ∉ r.events := by
  cases hg : eng.pk_generate_key ctx rnd with
  | error s => simp [generateKeyJni, hg]
  | ok p =>
    obtain ⟨ctx2, pub⟩ := p
    simp [generateKeyJni, hg]

/-- C2: the claim fails in the source at this input: inside `decryptJni`, when
the plaintext allocation succeeds and the temp-ciphertext allocation fails,
the call frees the buffer it allocated but surfaces no error at all and
returns a silent null — the source logs the OOM but never sets `errorMessage`
(olm_pk.cpp lines 508-511), contradicting the claimed OutOfMemory
surfacing. -/
theorem decrypt_temp_ciphertext_oom_silent_null :
    (decryptJni toyEngine (some [2, 3])
      (some (EncryptedMessage.mk (some [12, 13]) (some [7, 8]) (some [3, 4])))
      true true true true true true true true true false junk0).thrown = none ∧
    (decryptJni toyEngine (some [2, 3])
      (some (EncryptedMessage.mk (some [12, 13]) (some [7, 8]) (some [3, 4])))
      true true true true true true true true true false junk0).ret = none ∧
    (decryptJni toyEngine (some [2, 3])
      (some (EncryptedMessage.mk (some [12, 13]) (some [7, 8]) (some [3, 4])))
      true true true true true true true true true false junk0).engineCalled = false ∧
    (decryptJni toyEngine (some [2, 3])
      (some (EncryptedMessage.mk (some [12, 13]) (some [7, 8]) (some [3, 4])))
      true true true true true true true true true false junk0).events =
      [Event.alloc BufName.plaintextBuf 2, Event.free BufName.plaintextBuf] := by
  decide

/-- C3 counterexample: at this concrete Encrypt call with a null handle the
operation is rejected (no engine call, null return) but no error of any kind
is surfaced — `thrown = none` — the source only logs (olm_pk.cpp lines
148-151), so the claimed InvalidArgument error never reaches the caller. -/
theorem encrypt_null_handle_silent_counterexample :
    let r := encryptJni toyEngine (none : Option (List Nat)) (some [1, 2, 3])
      true true true true true true true (some [9, 9]) junk0
    r.thrown = none ∧ r.engineCalled = false ∧ r.ret = none := by
  decide

/-- C3 (amended): a null plaintext buffer on a valid handle is rejected with
the InvalidArgument error "invalid clear message" surfaced and no engine
operation invoked; a null handle is likewise rejected with no engine operation
and a null result, but no error is surfaced for it (the source only logs). -/
theorem encrypt_null_argument_rejection {E D : Type} (eng : Engine E D) (ctx : E)
    (pl : Option (List Nat)) (f1 f2 f3 f4 f5 f6 f7 : Bool)
    (rd : Option (List Nat)) (junk : Nat → Nat) :
    ((encryptJni eng (some ctx) none f1 f2 f3 f4 f5 f6 f7 rd junk).thrown =
        some "invalid clear message" ∧
      (encryptJni eng (some ctx) none f1 f2 f3 f4 f5 f6 f7 rd junk).engineCalled = false ∧
      (encryptJni eng (some ctx) none f1 f2 f3 f4 f5 f6 f7 rd junk).ret = none) ∧
    ((encryptJni eng none pl f1 f2 f3 f4 f5 f6 f7 rd junk).thrown = none ∧
      (encryptJni eng none pl f1 f2 f3 f4 f5 f6 f7 rd junk).engineCalled = false ∧
      (encryptJni eng none pl f1 f2 f3 f4 f5 f6 f7 rd junk).ret = none) := by
  simp [encryptJni]

/-- C7 counterexample: at this concrete SetRecipientKey call on a valid handle
with an empty (non-null, length-0) key buffer, the bridge does not fail with
the InvalidKey error "invalid key": it forwards the empty key to the engine
and surfaces the engine's own diagnostic instead. -/
theorem setRecipientKey_empty_key_counterexample :
    let r := setRecipientKeyJni toyEngine (some ([] : List Nat)) (some []) true
    r.engineCalled = true ∧ r.thrown = some "INVALID_KEY_LENGTH" ∧
    r.thrown ≠ some "invalid key" := by
  decide

/-- C7 (amended): on a valid handle, a null key buffer fails with the
InvalidKey error "invalid key" and the engine is not invoked; any non-null key
buffer — the empty one included — is forwarded to the engine together with its
length, and when the engine rejects it the call fails with an EngineError
carrying the engine's own last-error string for that context. -/
theorem setRecipientKey_error_paths {E D : Type} (eng : Engine E D) (ctx : E)
    (key : List Nat) (s : String) (pinOk : Bool)
    (h : eng.set_recipient_key ctx key = Except.error s) :
    ((setRecipientKeyJni eng (some ctx) none pinOk).thrown = some "invalid key" ∧
      (setRecipientKeyJni eng (some ctx) none pinOk).engineCalled = false) ∧
    ((setRecipientKeyJni eng (some ctx) (some key) true).thrown = some s ∧
      (setRecipientKeyJni eng (some ctx) (some key) true).engineCalled = true) := by
  simp [setRecipientKeyJni, h]

/-- Witness for C7 (amended) at a concrete input: the toy engine rejects the
one-byte key, and the bridge surfaces the engine's string; the null buffer
gets "invalid key". -/
theorem setRecipientKey_error_paths_witness :
    toyEngine.set_recipient_key [] [1] = Except.error "INVALID_KEY_LENGTH" ∧
    (((setRecipientKeyJni toyEngine (some ([] : List Nat)) none true).thrown =
          some "invalid key" ∧
        (setRecipientKeyJni toyEngine (some ([] : List Nat)) none true).engineCalled =
          false) ∧
      ((setRecipientKeyJni toyEngine (some ([] : List Nat)) (some [1]) true).thrown =
          some "INVALID_KEY_LENGTH" ∧
        (setRecipientKeyJni toyEngine (some ([] : List Nat)) (some [1]) true).engineCalled =
          true)) :=
  ⟨by rfl, setRecipientKey_error_paths toyEngine [] [1] "INVALID_KEY_LENGTH" true (by rfl)⟩

/-- C6: Release with a null handle is a safe no-op (nothing cleared or freed);
after a successful Release the handle no longer resolves to the context, so a
second Release frees nothing and every other operation on the released handle
fails cleanly — no engine call, no result, no second free.  Covers both the
encryption and the decryption bridge. -/
theorem release_null_noop_and_idempotent {E D : Type} (eng : Engine E D)
    (ec : E) (dc : D) (pl key : Option (List Nat)) (msg : Option EncryptedMessage)
    (f1 f2 f3 f4 f5 f6 f7 f8 f9 f10 : Bool)
    (rd : Option (List Nat)) (junk : Nat → Nat) :
    (releasePkEncryptionJni (none : Option E)).clearedAndFreed = false ∧
    (releasePkDecryptionJni (none : Option D)).clearedAndFreed = false ∧
    (let r := releasePkEncryptionJni (some ec)
     r.clearedAndFreed = true ∧
     (releasePkEncryptionJni r.ctxAfter).clearedAndFreed = false ∧
     (setRecipientKeyJni eng r.ctxAfter key f1).engineCalled = false ∧
     (setRecipientKeyJni eng r.ctxAfter key f1).ctxNew = none ∧
     (encryptJni eng r.ctxAfter pl f1 f2 f3 f4 f5 f6 f7 rd junk).engineCalled = false ∧
     (encryptJni eng r.ctxAfter pl f1 f2 f3 f4 f5 f6 f7 rd junk).ret = none) ∧
    (let r := releasePkDecryptionJni (some dc)
     r.clearedAndFreed = true ∧
     (releasePkDecryptionJni r.ctxAfter).clearedAndFreed = false ∧
     (decryptJni eng r.ctxAfter msg f1 f2 f3 f4 f5 f6 f7 f8 f9 f10 junk).engineCalled = false ∧
     (decryptJni eng r.ctxAfter msg f1 f2 f3 f4 f5 f6 f7 f8 f9 f10 junk).ret = none ∧
     (generateKeyJni eng r.ctxAfter rd f1 junk).engineCalled = false ∧
     (generateKeyJni eng r.ctxAfter rd f1 junk).ret = none) := by
  simp [releasePkEncryptionJni, releasePkDecryptionJni, setRecipientKeyJni,
    encryptJni, decryptJni, generateKeyJni]

/-- C4: in every Encrypt call in which the random buffer was allocated —
whatever the outcome — the random buffer is overwritten with zeroes over its
full allocated length strictly before it is freed, and the ciphertext, MAC and
ephemeral-key scratch buffers are all freed before the call returns. -/
theorem encrypt_random_zeroed_and_scratch_freed {E D : Type} (eng : Engine E D)
    (p : Option E) (pl : Option (List Nat)) (f1 f2 f3 f4 f5 f6 f7 : Bool)
    (rd : Option (List Nat)) (junk : Nat → Nat) (L : Nat)
    (h : Event.alloc BufName.randomBuf L ∈
      (encryptJni eng p pl f1 f2 f3 f4 f5 f6 f7 rd junk).events) :
    zeroedThenFreed (encryptJni eng p pl f1 f2 f3 f4 f5 f6 f7 rd junk).events
        BufName.randomBuf L ∧
    Event.free BufName.ciphertextBuf ∈
      (encryptJni eng p pl f1 f2 f3 f4 f5 f6 f7 rd junk).events ∧
    Event.free BufName.macBuf ∈
      (encryptJni eng p pl f1 f2 f3 f4 f5 f6 f7 rd junk).events ∧
    Event.free BufName.ephemeralBuf ∈
      (encryptJni eng p pl f1 f2 f3 f4 f5 f6 f7 rd junk).events := by
  cases p with
  | none => simp [encryptJni] at h
  | some ctx =>
  cases pl with
  | none => simp [encryptJni] at h
  | some plain =>
  cases f1 with
  | false => simp [encryptJni] at h
  | true =>
  cases f2 with
  | false => simp [encryptJni] at h
  | true =>
  cases f3 with
  | false => simp [encryptJni] at h
  | true =>
  cases f4 with
  | false => simp [encryptJni] at h
  | true =>
  cases f5 with
  | false => simp [encryptJni] at h
  | true =>
  cases f6 with
  | false => simp [encryptJni] at h
  | true =>
  cases f7 with
  | false => simp [encryptJni] at h
  | true =>
  cases rd with
  | none => simp [encryptJni] at h
  | some rnd =>
    have hL : L = eng.encrypt_random_length ctx := by
      cases hpe : eng.pk_encrypt ctx plain rnd with
      | error s => simp [encryptJni, hpe] at h; exact h
      | ok t =>
        obtain ⟨c, me⟩ := t
        obtain ⟨m, e⟩ := me
        simp [encryptJni, hpe] at h; exact h
    subst hL
    cases hpe : eng.pk_encrypt ctx plain rnd with
    | error s =>
      refine ⟨⟨4, 5, by norm_num, ?_, ?_⟩, ?_, ?_, ?_⟩ <;>
        simp [encryptJni, hpe, zeroedThenFreed]
    | ok t =>
      obtain ⟨c, me⟩ := t
      obtain ⟨m, e⟩ := me
      refine ⟨⟨4, 5, by norm_num, ?_, ?_⟩, ?_, ?_, ?_⟩ <;>
        simp [encryptJni, hpe, zeroedThenFreed]

/-- Witness for C4 at a concrete input: a successful toy encrypt call whose
event trace allocates the random buffer, zeroes it, and frees everything. -/
theorem encrypt_random_zeroed_and_scratch_freed_witness :
    Event.alloc BufName.randomBuf 2 ∈
      (encryptJni toyEngine (some [3, 4]) (some [5, 6]) true true true true
        true true true (some [9, 9]) junk0).events ∧
    (zeroedThenFreed (encryptJni toyEngine (some [3, 4]) (some [5, 6]) true true
        true true true true true (some [9, 9]) junk0).events BufName.randomBuf 2 ∧
      Event.free BufName.ciphertextBuf ∈
        (encryptJni toyEngine (some [3, 4]) (some [5, 6]) true true true true
          true true true (some [9, 9]) junk0).events ∧
      Event.free BufName.macBuf ∈
        (encryptJni toyEngine (some [3, 4]) (some [5, 6]) true true true true
          true true true (some [9, 9]) junk0).events ∧
      Event.free BufName.ephemeralBuf ∈
        (encryptJni toyEngine (some [3, 4]) (some [5, 6]) true true true true
          true true true (some [9, 9]) junk0).events) :=
  ⟨by decide,
   encrypt_random_zeroed_and_scratch_freed toyEngine (some [3, 4]) (some [5, 6])
     true true true true true true true (some [9, 9]) junk0 2 (by decide)⟩

/-- C8: on a successful Decrypt the returned byte array is exactly the bytes
the engine wrote — its length is the engine-reported plaintext length, and the
uninitialized tail of the maximum-length plaintext buffer (the arbitrary
`junk`, universally quantified here) is never included in the result. -/
theorem decrypt_returns_exact_reported_bytes {E D : Type} (eng : Engine E D)
    (dc : D) (ct mac eph written trashed : List Nat) (junk : Nat → Nat)
    (h : eng.pk_decrypt dc eph mac ct (eng.max_plaintext_length dc ct.length) =
      (Except.ok written, trashed)) :
    (decryptJni eng (some dc)
        (some (EncryptedMessage.mk (some ct) (some mac) (some eph)))
        true true true true true true true true true true junk).ret = some written ∧
    (decryptJni eng (some dc)
        (some (EncryptedMessage.mk (some ct) (some mac) (some eph)))
        true true true true true true true true true true junk).thrown = none ∧
    Option.map List.length
      (decryptJni eng (some dc)
        (some (EncryptedMessage.mk (some ct) (some mac) (some eph)))
        true true true true true true true true true true junk).ret =
      some written.length := by
  simp [decryptJni, h, writeOver_take]

/-- Witness for C8 at a concrete input: the toy engine reports 2 plaintext
bytes and the bridge returns exactly them. -/
theorem decrypt_returns_exact_reported_bytes_witness :
    toyEngine.pk_decrypt [2, 3] [3, 4] [7, 8] [12, 13]
        (toyEngine.max_plaintext_length [2, 3] (List.length [12, 13])) =
      (Except.ok [5, 6], [0, 0]) ∧
    ((decryptJni toyEngine (some [2, 3])
        (some (EncryptedMessage.mk (some [12, 13]) (some [7, 8]) (some [3, 4])))
        true true true true true true true true true true junk0).ret = some [5, 6] ∧
      (decryptJni toyEngine (some [2, 3])
        (some (EncryptedMessage.mk (some [12, 13]) (some [7, 8]) (some [3, 4])))
        true true true true true true true true true true junk0).thrown = none ∧
      Option.map List.length
        (decryptJni toyEngine (some [2, 3])
          (some (EncryptedMessage.mk (some [12, 13]) (some [7, 8]) (some [3, 4])))
          true true true true true true true true true true junk0).ret = some 2) :=
  ⟨by rfl,
   decrypt_returns_exact_reported_bytes toyEngine [2, 3] [12, 13] [7, 8] [3, 4]
     [5, 6] [0, 0] junk0 (by rfl)⟩

/-- C9: the caller's ciphertext view is never mutated by Decrypt — for every
handle, message, flag combination and engine behavior (the engine may trash
the ciphertext buffer it is handed arbitrarily), the message's ciphertext
after the call equals the ciphertext before it; and on the path that reaches
the engine, the engine's destructive decrypt operation receives the freshly
copied scratch buffer holding exactly the original ciphertext bytes. -/
theorem decrypt_ciphertext_not_mutated {E D : Type} (eng : Engine E D)
    (dp : Option D) (msg : Option EncryptedMessage)
    (f1 f2 f3 f4 f5 f6 f7 f8 f9 f10 : Bool) (junk : Nat → Nat)
    (dc : D) (ct mac eph : List Nat) (junk2 : Nat → Nat) :
    (decryptJni eng dp msg f1 f2 f3 f4 f5 f6 f7 f8 f9 f10 junk).msgCiphertextAfter =
      Option.bind msg EncryptedMessage.mCipherText ∧
    ((decryptJni eng (some dc)
        (some (EncryptedMessage.mk (some ct) (some mac) (some eph)))
        true true true true true true true true true true junk2).engineCalled = true ∧
      (decryptJni eng (some dc)
        (some (EncryptedMessage.mk (some ct) (some mac) (some eph)))
        true true true true true true true true true true junk2).engineCiphertextArg =
        some ct) := by
  refine ⟨?_, ?_⟩
  · cases dp with
    | none => cases msg <;> simp [decryptJni]
    | some c =>
      cases msg with
      | none => simp [decryptJni]
      | some m =>
        obtain ⟨mc, mm, me⟩ := m
        cases f1 with
        | false => simp [decryptJni]
        | true =>
        cases f2 with
        | false => simp [decryptJni]
        | true =>
        cases mc with
        | none => simp [decryptJni]
        | some ct2 =>
        cases f3 with
        | false => simp [decryptJni]
        | true =>
        cases f4 with
        | false => simp [decryptJni]
        | true =>
        cases f5 with
        | false => simp [decryptJni]
        | true =>
        cases mm with
        | none => simp [decryptJni]
        | some mac2 =>
        cases f6 with
        | false => simp [decryptJni]
        | true =>
        cases f7 with
        | false => simp [decryptJni]
        | true =>
        cases me with
        | none => simp [decryptJni]
        | some eph2 =>
        cases f8 with
        | false => simp [decryptJni]
        | true =>
        cases f9 with
        | false => simp [decryptJni]
        | true =>
        cases f10 with
        | false => simp [decryptJni]
        | true =>
          cases hpd : eng.pk_decrypt c eph2 mac2 ct2
              (eng.max_plaintext_length c ct2.length) with
          | mk res tr => cases res <;> simp [decryptJni, hpd]
  · cases hpd : eng.pk_decrypt dc eph mac ct (eng.max_plaintext_length dc ct.length) with
    | mk res tr =>
      cases res with
      | error s => simp [decryptJni, hpd]
      | ok w => simp [decryptJni, hpd]

/-- C5: round trip through the bridge.  The hypotheses package the engine
contract (spec section 6 — the cryptographic primitives are an external
collaborator): the generated key pair's public key `pub` is the recipient key
set on the encryption context, the engine's outputs have their advertised
lengths with NUL-free textual outputs, and the engine's decrypt inverts its
encrypt for the matching key pair.  Under these, the bridge chain
GenerateKey → SetRecipientKey → Encrypt → message assembly → Decrypt returns
exactly the original plaintext: the bridge's marshalling loses nothing.  The
managed-side assembly of the EncryptedMessage from the returned ciphertext
array and the stored MAC / ephemeral-key fields is not under src/ and is
modelled from the spec (the fields are UTF-8/ASCII-safe carriers of exactly
those bytes). -/
theorem pk_round_trip {E D : Type} (eng : Engine E D)
    (dc0 dc : D) (ec0 ec : E) (grnd pub plain rnd c m e trashed : List Nat)
    (junk1 junk2 junk3 : Nat → Nat)
    (hgen : eng.pk_generate_key dc0 grnd = Except.ok (dc, pub))
    (hpub : pub.length = eng.key_length)
    (hset : eng.set_recipient_key ec0 pub = Except.ok ec)
    (henc : eng.pk_encrypt ec plain rnd = Except.ok (c, m, e))
    (hclen : c.length = eng.ciphertext_length ec plain.length)
    (hmlen : m.length = eng.mac_length ec)
    (helen : e.length = eng.key_length)
    (hmz : ∀ b ∈ m, b ≠ 0) (hez : ∀ b ∈ e, b ≠ 0)
    (hdec : eng.pk_decrypt dc e m c (eng.max_plaintext_length dc c.length) =
      (Except.ok plain, trashed)) :
    (generateKeyJni eng (some dc0) (some grnd) true junk1).ret = some pub ∧
    (setRecipientKeyJni eng (some ec0) (some pub) true).ctxNew = some ec ∧
    (let encr := encryptJni eng
        (setRecipientKeyJni eng (some ec0) (some pub) true).ctxNew (some plain)
        true true true true true true true (some rnd) junk2
     let msg := EncryptedMessage.mk encr.ret encr.macField encr.ephemeralField
     (decryptJni eng (generateKeyJni eng (some dc0) (some grnd) true junk1).ctxAfter
        (some msg) true true true true true true true true true true junk3).ret =
       some plain) := by
  have hsetr : (setRecipientKeyJni eng (some ec0) (some pub) true).ctxNew = some ec := by
    simp [setRecipientKeyJni, hset]
  have hgenr : (generateKeyJni eng (some dc0) (some grnd) true junk1).ctxAfter =
      some dc := by
    simp [generateKeyJni, hgen]
  have hgenret : (generateKeyJni eng (some dc0) (some grnd) true junk1).ret =
      some pub := by
    simp only [generateKeyJni, hgen, if_true]
    rw [← hpub, writeOver_take]
  have hencret : (encryptJni eng (some ec) (some plain)
      true true true true true true true (some rnd) junk2).ret = some c := by
    simp only [encryptJni, henc, if_true]
    rw [← hclen, writeOver_take]
  have hwm : writeOver (mkBuf junk2 (eng.mac_length ec) ++ [0]) m = m ++ [0] := by
    rw [writeOver, ← hmlen, mkBuf_append_drop]
  have hwe : writeOver (mkBuf junk2 eng.key_length ++ [0]) e = e ++ [0] := by
    rw [writeOver, ← helen, mkBuf_append_drop]
  have hmac : (encryptJni eng (some ec) (some plain)
      true true true true true true true (some rnd) junk2).macField = some m := by
    simp only [encryptJni, henc, if_true]
    rw [hwm, cString_append_zero m [] hmz]
  have heph : (encryptJni eng (some ec) (some plain)
      true true true true true true true (some rnd) junk2).ephemeralField = some e := by
    simp only [encryptJni, henc, if_true]
    rw [hwe, cString_append_zero e [] hez]
  refine ⟨hgenret, hsetr, ?_⟩
  simp only [hsetr, hgenr, hencret, hmac, heph]
  simp only [decryptJni, hdec, if_true]
  rw [writeOver_take]

/-- Witness for C5 at a concrete input: the toy engine round-trips the
plaintext [5, 6] through the full bridge chain. -/
theorem pk_round_trip_witness :
    toyEngine.pk_generate_key [9, 9] [2, 3] = Except.ok ([2, 3], [3, 4]) ∧
    toyEngine.set_recipient_key [] [3, 4] = Except.ok [3, 4] ∧
    toyEngine.pk_encrypt [3, 4] [5, 6] [7, 7] =
      Except.ok ([12, 13], [7, 8], [3, 4]) ∧
    toyEngine.pk_decrypt [2, 3] [3, 4] [7, 8] [12, 13]
        (toyEngine.max_plaintext_length [2, 3] (List.length [12, 13])) =
      (Except.ok [5, 6], [0, 0]) ∧
    ((generateKeyJni toyEngine (some [9, 9]) (some [2, 3]) true junk0).ret =
        some [3, 4] ∧
      (setRecipientKeyJni toyEngine (some ([] : List Nat)) (some [3, 4]) true).ctxNew =
        some [3, 4] ∧
      (decryptJni toyEngine
        (generateKeyJni toyEngine (some [9, 9]) (some [2, 3]) true junk0).ctxAfter
        (some (EncryptedMessage.mk
          (encryptJni toyEngine
            (setRecipientKeyJni toyEngine (some ([] : List Nat)) (some [3, 4]) true).ctxNew
            (some [5, 6]) true true true true true true true (some [7, 7]) junk0).ret
          (encryptJni toyEngine
            (setRecipientKeyJni toyEngine (some ([] : List Nat)) (some [3, 4]) true).ctxNew
            (some [5, 6]) true true true true true true true (some [7, 7]) junk0).macField
          (encryptJni toyEngine
            (setRecipientKeyJni toyEngine (some ([] : List Nat)) (some [3, 4]) true).ctxNew
            (some [5, 6]) true true true true true true true (some [7, 7]) junk0).ephemeralField))
        true true true true true true true true true true junk0).ret = some [5, 6]) :=
  ⟨by rfl, by rfl, by rfl, by rfl,
   pk_round_trip toyEngine [9, 9] [2, 3] [] [3, 4] [2, 3] [3, 4] [5, 6] [7, 7]
     [12, 13] [7, 8] [3, 4] [0, 0] junk0 junk0 junk0
     (by rfl) (by rfl) (by rfl) (by rfl) (by rfl) (by rfl) (by rfl)
     (by decide) (by decide) (by rfl)⟩

end OlmPk
